import Mathlib

/-!
Shallow embedding of the logrus-prefixed-formatter text formatter
(`src/formatter.go`, package `prefixed`).

Go strings are modelled as lists of characters (`Str`); Go's UTF-8 byte
order agrees with code-point order, so lexicographic comparison of
`List Char` models `sort.Strings`.  Field values (`interface{}` in Go)
are modelled by the closed variant `Value` (string / error / other), as
the source's type switch only distinguishes those three cases.  External
collaborators (the logrus framework's level names and default timestamp
pattern, the `time.Time.Format` method, terminal detection and the ansi
styling library) are modelled at their interfaces, as the spec directs.
-/

namespace Prefixed

/-- Type of Go strings: a list of characters (runes). -/
abbrev Str := List Char

/-- Conversion from a Lean string literal to the `Str` model. -/
def strL (s : String) : Str := s.data

/-- Closed variant for Go `interface{}` field values, following the type
switch in `appendKeyValue`: a string, an error (carrying its message,
the result of `Error()`), or any other value (carrying its `fmt`
stringification). -/
inductive Value where
  | str (s : Str)
  | err (msg : Str)
  | other (repr : Str)
deriving DecidableEq

/-- Stringification of a value as `fmt`'s `%+v` / `Fprint` renders it:
a string prints raw, an error prints its message (fmt calls `Error()`),
anything else its generic representation. -/
def Value.toStr : Value → Str
  | .str s => s
  | .err m => m
  | .other r => r

/-- Field mapping `logrus.Fields` (a Go map), modelled as an association
list; lookups go through `List.lookup`, updates through `mapSet`
(overwrite an existing key, else append). -/
abbrev Fields := List (Str × Value)

/-- Go map assignment `data[k] = v`: overwrite the binding of `k` when it
exists, otherwise add one. -/
def mapSet (d : Fields) (k : Str) (v : Value) : Fields :=
  match d with
  | [] => [(k, v)]
  | (k₀, v₀) :: rest => if k₀ = k then (k, v) :: rest else (k₀, v₀) :: mapSet rest k v

/-- Severity levels of the logrus framework consumed by the formatter. -/
inductive Level where
  | debug | info | warning | error | fatal | panic
deriving DecidableEq

/-- Modelled from the spec: the framework's severity-to-name mapping
(`logrus.Level.String()`), an external interface consumed by the
formatter; note Warn's native spelling is the six-letter "warning". -/
def Level.str : Level → Str
  | .debug => strL "debug"
  | .info => strL "info"
  | .warning => strL "warning"
  | .error => strL "error"
  | .fatal => strL "fatal"
  | .panic => strL "panic"

/-- Characters the quoting check accepts: `[A-Za-z0-9.-]`
(`needsQuoting`'s rune loop). -/
def allowedChar (c : Char) : Bool :=
  (('a' ≤ c && c ≤ 'z') || ('A' ≤ c && c ≤ 'Z') ||
   ('0' ≤ c && c ≤ '9') || c = '-' || c = '.')

/-- Whitespace as Go's `unicode.IsSpace` recognises it (used by
`strings.TrimSpace`). -/
def isSpaceGo (c : Char) : Bool :=
  c = '\t' || c = '\n' || c = '\x0b' || c = '\x0c' || c = '\r' || c = ' ' ||
  c.toNat = 0x85 || c.toNat = 0xA0 || c.toNat = 0x1680 ||
  (0x2000 ≤ c.toNat && c.toNat ≤ 0x200A) ||
  c.toNat = 0x2028 || c.toNat = 0x2029 || c.toNat = 0x202F ||
  c.toNat = 0x205F || c.toNat = 0x3000

/-- Go `strings.TrimSpace`: drop leading and trailing whitespace. -/
def trimSpace (s : Str) : Str :=
  ((s.dropWhile isSpaceGo).reverse.dropWhile isSpaceGo).reverse

/-- Hexadecimal digit characters, used by the `\xHH` escapes of Go's
quoted string form. -/
def hexDigit (n : Nat) : Char :=
  if n < 10 then Char.ofNat ('0'.toNat + n) else Char.ofNat ('a'.toNat + (n - 10))

/-- Quoting of one character inside Go's `%q` form (`strconv.Quote`):
quote and backslash are backslash-escaped, printable ASCII passes
through, the named control escapes are used, other ASCII becomes
`\xHH`.  Printable non-ASCII runes pass through unchanged; the
`unicode.IsPrint` table deciding which non-ASCII runes are instead
`\u`-escaped is not modelled (no claim exercises it). -/
def goQuoteChar (c : Char) : Str :=
  if c = '"' then ['\\', '"']
  else if c = '\\' then ['\\', '\\']
  else if 0x20 ≤ c.toNat && c.toNat ≤ 0x7e then [c]
  else if c = '\x07' then ['\\', 'a']
  else if c = '\x08' then ['\\', 'b']
  else if c = '\x0c' then ['\\', 'f']
  else if c = '\n' then ['\\', 'n']
  else if c = '\r' then ['\\', 'r']
  else if c = '\t' then ['\\', 't']
  else if c = '\x0b' then ['\\', 'v']
  else if c.toNat < 0x80 then ['\\', 'x', hexDigit (c.toNat / 16), hexDigit (c.toNat % 16)]
  else [c]

/-- Go's `%q` rendering of a string: the escaped text between double
quotes. -/
def goQuote (s : Str) : Str :=
  '"' :: (s.map goQuoteChar).flatten ++ ['"']

/-- Right-alignment to a minimum width (Go's `%+5s` verb on the level
text; the `+` flag has no effect on strings). -/
def padLeftTo (w : Nat) (s : Str) : Str :=
  List.replicate (w - s.length) ' ' ++ s

/-- Left-justification to a minimum width (Go's `%-Ns` verb produced by
`messageFormat` when `SpacePadding` is non-zero). -/
def padRightTo (w : Nat) (s : Str) : Str :=
  s ++ List.replicate (w - s.length) ' '

/-- Go's `%04d` rendering of the relative-seconds counter: decimal
digits left-padded with zeros to width 4. -/
def pad4 (n : Nat) : Str :=
  let d := Nat.toDigits 10 n
  List.replicate (4 - d.length) '0' ++ d

/-- ASCII-uppercase of a string (`strings.ToUpper` on the level names,
which are ASCII). -/
def toUpperStr (s : Str) : Str := s.map Char.toUpper

/-- Index of the first `']'` reachable by the regular expression
`^\[(.*?)\]` after the opening bracket: `.` does not match a newline in
Go regexp, so a `']'` counts only when no `'\n'` stands before it. -/
def findClose : Str → Option Nat
  | [] => none
  | c :: rest =>
    if c = ']' then some 0
    else if c = '\n' then none
    else (findClose rest).map (· + 1)

/-- Result of `regex.FindString(msg)` for `regex = ^\[(.*?)\]`: the
non-greedy leading bracket token (brackets included) when the message
starts with `'['` and a matching `']'` follows, else `none`
(`MatchString` is its `isSome`). -/
def bracketToken : Str → Option Str
  | '[' :: rest =>
    match findClose rest with
    | some i => some ('[' :: rest.take i ++ [']'])
    | none => none
  | _ => none

/-- Translation of `extractPrefix` (src/formatter.go:252): when the
message carries a leading non-greedy `[...]` token, return its inner
text and the rest of the message with surrounding whitespace trimmed;
otherwise return the empty prefix and the message unchanged. -/
def extractPrefix (msg : Str) : Str × Str :=
  match bracketToken msg with
  | some m => ((m.drop 1).dropLast, trimSpace (msg.drop m.length))
  | none => ([], msg)

/-- Compiled color scheme: one styling function per semantic role
(`compiledColorScheme` in the source; the functions come from the ansi
library's `ColorFunc`, modelled as opaque `Str → Str` values). -/
structure CompiledColorScheme where
  InfoLevelColor : Str → Str
  WarnLevelColor : Str → Str
  ErrorLevelColor : Str → Str
  FatalLevelColor : Str → Str
  PanicLevelColor : Str → Str
  DebugLevelColor : Str → Str
  PrefixColor : Str → Str
  TimestampColor : Str → Str

/-- Translation of the `TextFormatter` struct (src/formatter.go:63).
`colorScheme` is a nillable pointer (`*compiledColorScheme`, zero value
nil): `SetColorScheme` is the only writer, no use site falls back to
the package's `defaultColorScheme` (which `init` compiles but nothing
ever reads), and `printColored` dereferences the field unconditionally
— `none` here is the reachable nil state.  `isTerminal` and the
`sync.Once` state (`onceDone`) are the mutable run-time fields.
`ShortTimestamp` has no declaration in the Go struct: `printColored`
reads `f.ShortTimestamp` (src/formatter.go:223) although the struct
only declares `FullTimestamp`, so the Go file does not compile; the
identifier is modelled here as a free boolean field so the body of
`printColored` can be translated as written. -/
structure TextFormatter where
  ForceColors : Bool
  DisableColors : Bool
  DisableTimestamp : Bool
  FullTimestamp : Bool
  TimestampFormat : Str
  DisableSorting : Bool
  QuoteEmptyFields : Bool
  QuoteCharacter : Str
  SpacePadding : Nat
  ShortTimestamp : Bool
  colorScheme : Option CompiledColorScheme
  isTerminal : Bool
  onceDone : Bool

/-- Translation of `needsQuoting` (src/formatter.go:237): true when
empty text must be quoted, or when some character falls outside
`[A-Za-z0-9.-]` (the early-return rune loop is `List.any`). -/
def TextFormatter.needsQuoting (f : TextFormatter) (text : Str) : Bool :=
  if f.QuoteEmptyFields && text.isEmpty then true
  else text.any fun ch => !(allowedChar ch)

/-- Translation of `appendKeyValue` (src/formatter.go:262): write
`key=`, then the value — a string raw when `needsQuoting` holds and in
Go `%q` form otherwise (the branch the source actually has), an error
via its message through the same branch, anything else via generic
stringification — then one trailing space.  The source calls
`needsQuoting` without its method receiver; it is modelled as reading
this formatter's `QuoteEmptyFields`. -/
def TextFormatter.appendKeyValue (f : TextFormatter) (key : Str) (value : Value) : Str :=
  key ++ '=' ::
    (match value with
     | .str s => if f.needsQuoting s then s else goQuote s
     | .err m => if f.needsQuoting m then m else goQuote m
     | .other r => r) ++ [' ']

/-- One guarded statement of `prefixFieldClashes`: when key `k` is
bound in the mapping, assign its value to key `dup` (`if t, ok :=
data[k]; ok { data[dup] = t }`). -/
def clashStep (d : Fields) (k dup : Str) : Fields :=
  match d.lookup k with
  | some v => mapSet d dup v
  | none => d

/-- Translation of `prefixFieldClashes` (src/formatter.go:296): copy a
user-supplied `time`, `msg` or `level` binding under `fields.time`,
`fields.msg`, `fields.level` in that order; the original binding stays
in place. -/
def prefixFieldClashes (data : Fields) : Fields :=
  clashStep (clashStep (clashStep data (strL "time") (strL "fields.time"))
    (strL "msg") (strL "fields.msg")) (strL "level") (strL "fields.level")

/-- Log entry as the formatter consumes it.  `time` is the `time.Time`
value modelled by its `Format` method (pattern ↦ rendered text);
`logger` is `some b` when `entry.Logger` is non-nil, `b` being the
terminal-detection result for its output stream; `buffer` is the
optional caller-supplied `entry.Buffer` contents. -/
structure Entry where
  time : Str → Str
  level : Level
  message : Str
  data : Fields
  logger : Option Bool
  buffer : Option Str

/-- Translation of `TextFormatter.init` (src/formatter.go:120): default
the quote character to `"` when unset, and refresh `isTerminal` when the
entry carries a logger. -/
def TextFormatter.init (f : TextFormatter) (entry : Entry) : TextFormatter :=
  let f₁ := if f.QuoteCharacter.isEmpty then { f with QuoteCharacter := ['"'] } else f
  match entry.logger with
  | some t => { f₁ with isTerminal := t }
  | none => f₁

/-- Modelled from the spec: `logrus.DefaultTimestampFormat`, the
framework's default absolute-timestamp pattern (RFC 3339), consumed
when `TimestampFormat` is empty. -/
def DefaultTimestampFormat : Str := strL "2006-01-02T15:04:05Z07:00"

/-- Reset escape sequence (`ansi.Reset` of the styling library). -/
def ansiReset : Str := strL "\x1b[0m"

/-- Dim style used around timestamps (`ansi.LightBlack`). -/
def ansiLightBlack : Str := strL "\x1b[90m"

/-- Level text as `printColored` computes it (src/formatter.go:196):
uppercase of the framework's name, except Warn which is the literal
`WARN`. -/
def levelTextOf (l : Level) : Str :=
  if l ≠ .warning then toUpperStr l.str else strL "WARN"

/-- Styling function `printColored` selects for the entry's severity
(src/formatter.go:181); every level below the five named cases falls to
the debug color. -/
def levelColorOf (cs : CompiledColorScheme) : Level → (Str → Str)
  | .info => cs.InfoLevelColor
  | .warning => cs.WarnLevelColor
  | .error => cs.ErrorLevelColor
  | .fatal => cs.FatalLevelColor
  | .panic => cs.PanicLevelColor
  | .debug => cs.DebugLevelColor

/-- Translation of `printColored` (src/formatter.go:178).  `data` is the
entry's field mapping as the caller sees it at this point (after
`prefixFieldClashes`), `mini` the relative-seconds counter `miniTS()`,
and `funcRepr` the runtime's `fmt` rendering of a function value: the
format verbs at src/formatter.go:224, 226 and 232 pass the styling
function `levelColor` itself, not an application of it, so `fmt` prints
the function value's representation there.  The level-color switch at
line 183 dereferences `f.colorScheme` before any output is written;
when the scheme pointer is nil that is a nil-pointer dereference, so
the call panics and produces nothing — modelled as `none`. -/
def printColored (f : TextFormatter) (data : Fields) (entry : Entry)
    (keys : List Str) (timestampFormat : Str) (mini : Nat)
    (funcRepr : (Str → Str) → Str) : Option Str :=
  match f.colorScheme with
  | none => none
  | some cs =>
    let levelColor := levelColorOf cs entry.level
    let levelText := levelTextOf entry.level
    let pm : Str × Str :=
      match data.lookup (strL "prefix") with
      | some pv => (' ' :: cs.PrefixColor (pv.toStr ++ [':']), entry.message)
      | none =>
        let e := extractPrefix entry.message
        if e.1.length > 0 then
          (' ' :: cs.PrefixColor (e.1 ++ [':']), e.2)
        else ([], entry.message)
    let pfx := pm.1
    let message := pm.2
    let padMsg : Str → Str := fun s =>
      if f.SpacePadding ≠ 0 then padRightTo f.SpacePadding s else s
    let head :=
      if f.DisableTimestamp then
        padLeftTo 5 (levelColor levelText) ++ pfx ++ ' ' :: padMsg message
      else if f.ShortTimestamp then
        ansiLightBlack ++ '[' :: pad4 mini ++ ']' :: ansiReset ++ ' ' ::
          funcRepr levelColor ++ padLeftTo 5 levelText ++ ansiReset ++ pfx ++
          ' ' :: padMsg message
      else
        ansiLightBlack ++ '[' :: entry.time timestampFormat ++ ']' :: ansiReset ++ ' ' ::
          funcRepr levelColor ++ padLeftTo 5 levelText ++ ansiReset ++ pfx ++
          ' ' :: padMsg message
    some (head ++
      (keys.map fun k =>
        if k ≠ strL "prefix" then
          ' ' :: funcRepr levelColor ++ k ++ ansiReset ++ '=' ::
            ((data.lookup k).getD (.other (strL "<nil>"))).toStr
        else []).flatten)

/-- Lexicographic ascending sort of the key list (`sort.Strings`). -/
def sortStrings (keys : List Str) : List Str :=
  List.insertionSort (· ≤ ·) keys

/-- Key list as `Format` builds it (src/formatter.go:135): the keys of
the field mapping as supplied, sorted lexicographically unless sorting
is disabled.  The snapshot is taken before `prefixFieldClashes` runs. -/
def formatKeys (f : TextFormatter) (data : Fields) : List Str :=
  let keys := data.map Prod.fst
  if f.DisableSorting then keys else sortStrings keys

/-- Plain (non-colorized) body of `Format` (src/formatter.go:162):
`time=` unless timestamps are disabled, then `level=`, then `msg=` when
the message is non-empty, then every snapshotted key's value from the
(already mutated) field mapping. -/
def plainBody (f : TextFormatter) (data : Fields) (entry : Entry)
    (timestampFormat : Str) (keys : List Str) : Str :=
  (if f.DisableTimestamp then []
   else f.appendKeyValue (strL "time") (.str (entry.time timestampFormat))) ++
  f.appendKeyValue (strL "level") (.str entry.level.str) ++
  (if entry.message.isEmpty then []
   else f.appendKeyValue (strL "msg") (.str entry.message)) ++
  (keys.map fun k =>
    f.appendKeyValue k ((data.lookup k).getD (.other (strL "<nil>")))).flatten

/-- Outcome of one `Format` call.  `ret` is `some (bytes, errSlot)`
when the call returns — the byte sequence and the error slot of the Go
return pair — and `none` when it panics (the nil color-scheme
dereference in the colored path).  `data` and `fmtr` are the entry's
field mapping and the formatter as the caller observes them afterwards;
both mutations happen before the only panic point, so they are
caller-visible even when the call panics. -/
structure FormatResult where
  ret : Option (Str × Option Str)
  data : Fields
  fmtr : TextFormatter

/-- Returned byte sequence of a `Format` call, when it returned. -/
def FormatResult.bytes (r : FormatResult) : Option Str := r.ret.map Prod.fst

/-- Translation of `Format` (src/formatter.go:133).  The key list is
collected and sorted first, `prefixFieldClashes` then mutates the field
mapping, the once-guarded `init` runs, and the colored or plain body is
rendered into the (possibly caller-supplied) buffer, a newline
appended, and the bytes returned with a nil error — unless the colored
path panicked on a nil color scheme, in which case nothing is
returned. -/
def Format (f : TextFormatter) (entry : Entry) (mini : Nat)
    (funcRepr : (Str → Str) → Str) : FormatResult :=
  let keys := formatKeys f entry.data
  let b₀ := entry.buffer.getD []
  let data := prefixFieldClashes entry.data
  let f₁ := if f.onceDone then f else { f.init entry with onceDone := true }
  let isColored := (f₁.ForceColors || f₁.isTerminal) && !f₁.DisableColors
  let timestampFormat :=
    if f₁.TimestampFormat.isEmpty then DefaultTimestampFormat else f₁.TimestampFormat
  let body :=
    if isColored then printColored f₁ data entry keys timestampFormat mini funcRepr
    else some (plainBody f₁ data entry timestampFormat keys)
  { ret := body.map fun s => (b₀ ++ s ++ ['\n'], none),
    data := data, fmtr := f₁ }

/-! Concrete fixtures for witnesses and counterexamples. -/

/-- Identity color scheme: every role styles text as itself. -/
def idScheme : CompiledColorScheme :=
  ⟨id, id, id, id, id, id, id, id⟩

/-- Formatter with Go zero values everywhere: all flags false, empty
strings, no padding, and — as for any `TextFormatter` on which
`SetColorScheme` was never called — a nil color scheme. -/
def fmtr0 : TextFormatter :=
  ⟨false, false, false, false, [], false, false, [], 0, false, none, false, false⟩

/-- Concrete rendering of a function value by `fmt` (the text is
address-dependent at run time; any fixed value serves a witness). -/
def funcRepr0 : (Str → Str) → Str := fun _ => strL "%!s(func)"

/-! Helper lemmas about infixes and the field-mapping operations. -/

/-- Prepending on the left preserves infixes. -/
theorem infix_extend_left (s : Str) {m t : Str} (h : m <:+: t) : m <:+: s ++ t := by
  obtain ⟨a, b, rfl⟩ := h
  exact ⟨s ++ a, b, by simp⟩

/-- Appending on the right preserves infixes. -/
theorem infix_extend_right (r : Str) {m t : Str} (h : m <:+: t) : m <:+: t ++ r := by
  obtain ⟨a, b, rfl⟩ := h
  exact ⟨a, b ++ r, by simp⟩

/-- A list is an infix of itself followed by anything. -/
theorem infix_self_append (m r : Str) : m <:+: m ++ r :=
  ⟨[], r, rfl⟩

/-- Lookup after a Go map assignment: the assigned key reads the new
value, every other key is untouched. -/
theorem lookup_mapSet (d : Fields) (k k₀ : Str) (v : Value) :
    (mapSet d k v).lookup k₀ = if k₀ = k then some v else d.lookup k₀ := by
  induction d with
  | nil =>
    by_cases h : k₀ = k
    · simp [mapSet, List.lookup, h]
    · simp [mapSet, List.lookup, h, beq_eq_false_iff_ne.mpr h]
  | cons p rest ih =>
    obtain ⟨k₁, v₁⟩ := p
    by_cases h : k₁ = k
    · subst h
      by_cases h₀ : k₀ = k₁
      · simp [mapSet, List.lookup, h₀]
      · simp [mapSet, List.lookup, h₀, beq_eq_false_iff_ne.mpr h₀]
    · by_cases h₀ : k₀ = k₁
      · subst h₀
        simp [mapSet, List.lookup, h]
      · simp [mapSet, List.lookup, h, beq_eq_false_iff_ne.mpr h₀, ih]

/-- A clash step never changes a key other than its duplicate key. -/
theorem lookup_clashStep_ne (d : Fields) (k dup k₀ : Str) (h : k₀ ≠ dup) :
    (clashStep d k dup).lookup k₀ = d.lookup k₀ := by
  unfold clashStep
  cases hv : d.lookup k with
  | none => rfl
  | some v => rw [lookup_mapSet, if_neg h]

/-- A clash step never removes a key. -/
theorem lookup_clashStep_isSome (d : Fields) (k dup k₀ : Str)
    (h : (d.lookup k₀).isSome) : ((clashStep d k dup).lookup k₀).isSome := by
  unfold clashStep
  cases hv : d.lookup k with
  | none => exact h
  | some v =>
    rw [lookup_mapSet]
    by_cases h₀ : k₀ = dup
    · simp [h₀]
    · simp [h₀, h]

/-- After a clash step the duplicate key holds the copied value when
the source key was bound, and is untouched otherwise. -/
theorem lookup_clashStep_dup (d : Fields) (k dup : Str) :
    (clashStep d k dup).lookup dup =
      if (d.lookup k).isSome then d.lookup k else d.lookup dup := by
  unfold clashStep
  cases hv : d.lookup k with
  | none => simp
  | some v => simp [lookup_mapSet]

/-- The mutated field mapping `Format` leaves behind is exactly the
result of `prefixFieldClashes` on the entry's mapping. -/
theorem Format_data (f : TextFormatter) (e : Entry) (mini : Nat)
    (fr : (Str → Str) → Str) :
    (Format f e mini fr).data = prefixFieldClashes e.data := rfl

/-- Warn's native level name never needs quoting (non-empty, all
characters in the allowed set), for every configuration. -/
theorem needsQuoting_warning (f : TextFormatter) :
    f.needsQuoting (strL "warning") = false := by
  cases h : f.QuoteEmptyFields <;> simp only [TextFormatter.needsQuoting, h] <;> decide

/-! Claim theorems. -/

/-- C3: `extractPrefix` matches a leading non-greedy bracketed token:
on `"[db] connected"` it returns prefix `"db"` and remainder
`"connected"`; on `"[a][b] c"` it returns prefix `"a"` and remainder
`"[b] c"`, stopping at the first `]`; and for every message with no
leading bracket token (the regular expression does not match) it
returns the empty prefix and the message unchanged. -/
theorem C3_extractPrefix_spec :
    extractPrefix (strL "[db] connected") = (strL "db", strL "connected") ∧
    extractPrefix (strL "[a][b] c") = (strL "a", strL "[b] c") ∧
    ∀ msg : Str, (bracketToken msg).isSome = false → extractPrefix msg = ([], msg) := by
  refine ⟨by decide, by decide, fun msg h => ?_⟩
  unfold extractPrefix
  cases hb : bracketToken msg with
  | none => rfl
  | some m => rw [hb] at h; simp at h

/-- C3 witness: `"no brackets"` has no leading bracket token, and
`extractPrefix` leaves it unchanged. -/
theorem C3_extractPrefix_spec_witness :
    (bracketToken (strL "no brackets")).isSome = false ∧
    extractPrefix (strL "no brackets") = ([], strL "no brackets") :=
  ⟨by decide, C3_extractPrefix_spec.2.2 (strL "no brackets") (by decide)⟩

/-- C6: `needsQuoting text` is true exactly when quoting of empty
fields is requested and the text is empty, or some character of the
text falls outside `[A-Za-z0-9.-]`; in particular on the empty string
it returns exactly the `QuoteEmptyFields` flag, on `"abc-1.2"` it is
false and on `"a b"` it is true for every configuration. -/
theorem C6_needsQuoting_iff :
    (∀ (f : TextFormatter) (text : Str),
      f.needsQuoting text = true ↔
        (f.QuoteEmptyFields = true ∧ text = []) ∨ ∃ c ∈ text, allowedChar c = false) ∧
    (∀ f : TextFormatter, f.needsQuoting [] = f.QuoteEmptyFields) ∧
    (∀ f : TextFormatter, f.needsQuoting (strL "abc-1.2") = false) ∧
    (∀ f : TextFormatter, f.needsQuoting (strL "a b") = true) := by
  refine ⟨fun f text => ?_, fun f => ?_, fun f => ?_, fun f => ?_⟩
  · cases text with
    | nil => cases h : f.QuoteEmptyFields <;>
        simp [TextFormatter.needsQuoting, h]
    | cons c cs =>
      simp [TextFormatter.needsQuoting, List.any_eq_true, Bool.not_eq_true']
  · cases h : f.QuoteEmptyFields <;> simp [TextFormatter.needsQuoting, h]
  · cases h : f.QuoteEmptyFields <;> simp only [TextFormatter.needsQuoting, h] <;> decide
  · cases h : f.QuoteEmptyFields <;> simp only [TextFormatter.needsQuoting, h] <;> decide

/-- C2: in the plain path `appendKeyValue` writes a string value raw
and unquoted when `needsQuoting` returns true for it, and in Go `%q`
quoted form when `needsQuoting` returns false; an error value goes
through the same branch applied to its message text. -/
theorem C2_appendKeyValue_quoting :
    ∀ (f : TextFormatter) (key s : Str),
      (f.needsQuoting s = true →
        f.appendKeyValue key (.str s) = key ++ '=' :: s ++ [' '] ∧
        f.appendKeyValue key (.err s) = key ++ '=' :: s ++ [' ']) ∧
      (f.needsQuoting s = false →
        f.appendKeyValue key (.str s) = key ++ '=' :: goQuote s ++ [' '] ∧
        f.appendKeyValue key (.err s) = key ++ '=' :: goQuote s ++ [' ']) := by
  intro f key s
  constructor <;> intro h <;>
    simp [TextFormatter.appendKeyValue, h]

/-- C2 witness: with the zero-valued formatter, `"a b"` needs quoting
and is written raw, `"abc"` does not and is written in `%q` form. -/
theorem C2_appendKeyValue_quoting_witness :
    fmtr0.needsQuoting (strL "a b") = true ∧
    fmtr0.appendKeyValue (strL "k") (.str (strL "a b")) = strL "k=a b " ∧
    fmtr0.needsQuoting (strL "abc") = false ∧
    fmtr0.appendKeyValue (strL "k") (.str (strL "abc")) = strL "k=\"abc\" " :=
  ⟨by decide,
   by rw [((C2_appendKeyValue_quoting fmtr0 (strL "k") (strL "a b")).1 (by decide)).1]; decide,
   by decide,
   by rw [((C2_appendKeyValue_quoting fmtr0 (strL "k") (strL "abc")).2 (by decide)).1]; decide⟩

/-- Lazy `init` never touches the color scheme. -/
theorem init_colorScheme (f : TextFormatter) (e : Entry) :
    (TextFormatter.init f e).colorScheme = f.colorScheme := by
  unfold TextFormatter.init
  cases e.logger <;> by_cases h : f.QuoteCharacter.isEmpty = true <;> simp [h]

/-- The formatter state `Format` works with after the once guard
carries the same color scheme the caller's formatter had. -/
theorem onceGuard_colorScheme (f : TextFormatter) (e : Entry) :
    (if f.onceDone = true then f
     else { f.init e with onceDone := true }).colorScheme = f.colorScheme := by
  by_cases h : f.onceDone = true <;> simp [h, init_colorScheme]

/-- Colored-path fixture: forced colors, a color scheme installed (as
`SetColorScheme` would), timestamps enabled, empty timestamp format,
both timestamp-mode booleans false. -/
def fmtrC4 : TextFormatter :=
  { fmtr0 with ForceColors := true, colorScheme := some idScheme }

/-- Entry whose `time.Time.Format` renders `15:04:05` for every
pattern. -/
def entryC4 : Entry := ⟨fun _ => strL "15:04:05", .info, strL "hi", [], none, none⟩

/-- C4: the claim reads the short-timestamp mode as `fullTimestamp =
false`, but `printColored` branches on the undeclared identifier
`ShortTimestamp` (src/formatter.go:223; the struct declares only
`FullTimestamp`, whose doc comment promises the relative counter when
it is unset, so the Go file does not even compile).  With both booleans
false and timestamps enabled the code renders the absolute formatted
timestamp, not the bracketed 4-digit relative counter the claim
requires; the counter appears only when the phantom `ShortTimestamp`
flag is set, and `FullTimestamp` is never consulted at all. -/
theorem C4_shortTimestamp_divergence :
    ((Format fmtrC4 entryC4 7 funcRepr0).bytes).isSome ∧
    ((strL "[15:04:05]") <:+: ((Format fmtrC4 entryC4 7 funcRepr0).bytes).getD []) ∧
    (¬ (strL "[0007]") <:+: ((Format fmtrC4 entryC4 7 funcRepr0).bytes).getD []) ∧
    ((strL "[0007]") <:+:
      ((Format { fmtrC4 with ShortTimestamp := true } entryC4 7 funcRepr0).bytes).getD []) ∧
    (∀ (f : TextFormatter) (e : Entry) (mini : Nat) (fr : (Str → Str) → Str) (b : Bool),
      (Format { f with FullTimestamp := b } e mini fr).ret
        = (Format f e mini fr).ret) := by
  refine ⟨by decide, by decide, by decide, by decide, fun f e mini fr b => ?_⟩
  cases f with
  | mk fc dc dt ft tf ds qe qc sp st cs it od =>
    cases e with
    | mk tm lv ms da lg bf =>
      cases od
      · cases lg <;> by_cases h2 : qc.isEmpty = true <;>
          simp only [Format, TextFormatter.init, h2, if_true, if_false,
            List.isEmpty_eq_true, ite_true, ite_false] <;> rfl
      · rfl

/-- C8: the claim says formatting never fails for every entry and
configuration, but the colored path dereferences the nillable color
scheme with no fallback (src/formatter.go:183; the compiled
`defaultColorScheme` that the spec names as the default is never
consulted), so a formatter on which `SetColorScheme` was never called
panics under forced colors instead of returning.  Whenever `Format`
does return, the error slot is nil and the byte sequence non-empty, and
a formatter with a scheme installed always returns. -/
theorem C8_format_panics_on_nil_scheme :
    ((Format { fmtr0 with ForceColors := true } entryC4 0 funcRepr0).ret = none) ∧
    (∀ (f : TextFormatter) (e : Entry) (mini : Nat) (fr : (Str → Str) → Str)
       (bytes : Str) (err : Option Str),
      (Format f e mini fr).ret = some (bytes, err) → err = none ∧ bytes ≠ []) ∧
    (∀ (f : TextFormatter) (e : Entry) (mini : Nat) (fr : (Str → Str) → Str),
      f.colorScheme.isSome → ((Format f e mini fr).ret).isSome) := by
  refine ⟨by decide, ?_, ?_⟩
  · intro f e mini fr bytes err h
    simp only [Format, Option.map_eq_some'] at h
    obtain ⟨s, hs, heq⟩ := h
    injection heq with h₁ h₂
    subst h₁
    subst h₂
    exact ⟨rfl, by simp⟩
  · intro f e mini fr hcs
    obtain ⟨cs, hcs'⟩ := Option.isSome_iff_exists.mp hcs
    simp only [Format, printColored, onceGuard_colorScheme, hcs', Option.isSome_map',
      apply_ite Option.isSome, Option.isSome_some, ite_self]

/-- C9: the configured `QuoteCharacter` (including the value the lazy
`init` defaults it to) is never consulted when emitting output: two
formatter states that differ only in `QuoteCharacter` produce identical
bytes from `Format`, and `appendKeyValue` — which always uses the `%q`
double-quote form for quoting — is likewise unchanged by it. -/
theorem C9_quoteCharacter_never_consulted :
    (∀ (f : TextFormatter) (e : Entry) (mini : Nat) (fr : (Str → Str) → Str) (q : Str),
      (Format { f with QuoteCharacter := q } e mini fr).ret
        = (Format f e mini fr).ret) ∧
    (∀ (f : TextFormatter) (key : Str) (v : Value) (q : Str),
      ({ f with QuoteCharacter := q } : TextFormatter).appendKeyValue key v
        = f.appendKeyValue key v) := by
  constructor
  · intro f e mini fr q
    cases f with
    | mk fc dc dt ft tf ds qe qc sp st cs it od =>
      cases e with
      | mk tm lv ms da lg bf =>
        cases od
        · cases lg <;> by_cases h1 : q.isEmpty = true <;> by_cases h2 : qc.isEmpty = true <;>
            simp only [Format, TextFormatter.init, h1, h2, if_true, if_false,
              List.isEmpty_eq_true, ite_true, ite_false] <;> rfl
        · rfl
  · intro f key v q
    cases f with
    | mk fc dc dt ft tf ds qe qc sp st cs it od => rfl

/-- Plain-path fixture: timestamps disabled, everything else zero. -/
def fmtrC1 : TextFormatter := { fmtr0 with DisableTimestamp := true }

/-- Entry carrying a user-supplied `level` field, the situation the
field-clash duplication exists for (the example of the source's own
comment at src/formatter.go:287). -/
def entryC1 : Entry :=
  ⟨fun _ => strL "TS", .info, strL "hello",
   [(strL "level", .other (strL "1"))], none, none⟩

/-- C1: the mapping does receive the `fields.level` copy, but `Format`
snapshots and sorts the key list before `prefixFieldClashes` runs, so
no `fields.level=` entry is ever rendered: the output carries the
framework slot `level="info"` and the user value under its original
key (`level=1`), contradicting the claim and the code's own comment
that the entry is logged as `fields.level`. -/
theorem C1_fieldsLevel_not_rendered :
    ((Format fmtrC1 entryC1 0 funcRepr0).data.lookup (strL "fields.level")
        = some (.other (strL "1"))) ∧
    ((Format fmtrC1 entryC1 0 funcRepr0).bytes
        = some (strL "level=\"info\" msg=\"hello\" level=1 \n")) ∧
    (¬ (strL "fields.level") <:+: strL "level=\"info\" msg=\"hello\" level=1 \n") ∧
    ((strL "level=\"info\"") <:+: strL "level=\"info\" msg=\"hello\" level=1 \n") ∧
    ((strL "level=1") <:+: strL "level=\"info\" msg=\"hello\" level=1 \n") := by
  exact ⟨by decide, by decide, by decide, by decide, by decide⟩

/-- Entry that already carries both a `time` field and a `fields.time`
field, exhibiting the overwrite `prefixFieldClashes` performs. -/
def entryC10 : Entry :=
  ⟨fun _ => strL "TS", .info, strL "m",
   [(strL "time", .str (strL "t")), (strL "fields.time", .str (strL "x"))], none, none⟩

/-- C10 counterexample: when the mapping already binds `fields.time`,
`Format` overwrites that pre-existing binding with the copy of `time`,
so not every pre-existing key still maps to its original value. -/
theorem C10_overwrites_preexisting_duplicate :
    (entryC10.data.lookup (strL "fields.time") = some (.str (strL "x"))) ∧
    ((Format fmtr0 entryC10 0 funcRepr0).data.lookup (strL "fields.time")
        = some (.str (strL "t"))) := by
  exact ⟨by decide, by decide⟩

/-- C10 (amended): `Format` mutates the caller-visible field mapping
only at the keys `fields.time`, `fields.msg` and `fields.level`: every
other pre-existing key keeps its value, no key is ever removed, and
each `fields.*` key afterwards holds a copy of the corresponding
reserved key's value when that key was bound (possibly replacing a
pre-existing `fields.*` value, which the original claim forbade) and is
untouched otherwise. -/
theorem C10_frame (f : TextFormatter) (e : Entry) (mini : Nat)
    (fr : (Str → Str) → Str) :
    (∀ k : Str, k ≠ strL "fields.time" → k ≠ strL "fields.msg" →
      k ≠ strL "fields.level" →
      (Format f e mini fr).data.lookup k = e.data.lookup k) ∧
    (∀ k : Str, (e.data.lookup k).isSome →
      ((Format f e mini fr).data.lookup k).isSome) ∧
    ((Format f e mini fr).data.lookup (strL "fields.time") =
      if (e.data.lookup (strL "time")).isSome then e.data.lookup (strL "time")
      else e.data.lookup (strL "fields.time")) ∧
    ((Format f e mini fr).data.lookup (strL "fields.msg") =
      if (e.data.lookup (strL "msg")).isSome then e.data.lookup (strL "msg")
      else e.data.lookup (strL "fields.msg")) ∧
    ((Format f e mini fr).data.lookup (strL "fields.level") =
      if (e.data.lookup (strL "level")).isSome then e.data.lookup (strL "level")
      else e.data.lookup (strL "fields.level")) := by
  rw [Format_data]
  unfold prefixFieldClashes
  refine ⟨fun k h1 h2 h3 => ?_, fun k h => ?_, ?_, ?_, ?_⟩
  · rw [lookup_clashStep_ne _ _ _ _ h3, lookup_clashStep_ne _ _ _ _ h2,
      lookup_clashStep_ne _ _ _ _ h1]
  · exact lookup_clashStep_isSome _ _ _ _
      (lookup_clashStep_isSome _ _ _ _ (lookup_clashStep_isSome _ _ _ _ h))
  · rw [lookup_clashStep_ne _ _ _ _ (by decide), lookup_clashStep_ne _ _ _ _ (by decide),
      lookup_clashStep_dup]
  · rw [lookup_clashStep_ne _ _ _ _ (by decide), lookup_clashStep_dup,
      lookup_clashStep_ne _ _ _ _ (by decide), lookup_clashStep_ne _ _ _ _ (by decide)]
  · rw [lookup_clashStep_dup,
      lookup_clashStep_ne _ _ _ _ (by decide), lookup_clashStep_ne _ _ _ _ (by decide),
      lookup_clashStep_ne _ _ _ _ (by decide), lookup_clashStep_ne _ _ _ _ (by decide)]

/-- C10 witness: at a concrete entry the frame theorem's hypotheses are
dischargeable — an unrelated key `a` is untouched and the bound key
`time` survives. -/
theorem C10_frame_witness :
    ((Format fmtr0 entryC10 0 funcRepr0).data.lookup (strL "a")
        = entryC10.data.lookup (strL "a")) ∧
    ((Format fmtr0 entryC10 0 funcRepr0).data.lookup (strL "time")).isSome :=
  ⟨(C10_frame fmtr0 entryC10 0 funcRepr0).1 (strL "a")
      (by decide) (by decide) (by decide),
   (C10_frame fmtr0 entryC10 0 funcRepr0).2.1 (strL "time") (by decide)⟩

/-- C5: with sorting enabled, the key list `Format` iterates — and
hence the order in which field keys, the non-reserved ones among them,
appear in the output — is lexicographically strictly ascending (keys
are unique), and so is any selection from it. -/
theorem C5_keys_sorted (f : TextFormatter) (data : Fields)
    (h : f.DisableSorting = false) (hnd : (data.map Prod.fst).Nodup) :
    List.Sorted (· < ·) (formatKeys f data) ∧
    ∀ p : Str → Bool, List.Sorted (· < ·) ((formatKeys f data).filter p) := by
  have hfk : formatKeys f data = sortStrings (data.map Prod.fst) := by
    simp [formatKeys, h]
  have hs : List.Sorted (· ≤ ·) (formatKeys f data) := by
    rw [hfk]; exact List.sorted_insertionSort _ _
  have hnd₂ : (formatKeys f data).Nodup := by
    rw [hfk]; exact ((List.perm_insertionSort _ _).nodup_iff).2 hnd
  have hlt := hs.lt_of_le hnd₂
  exact ⟨hlt, fun p => hlt.filter p⟩

/-- Unsorted two-key mapping for the C5 witness. -/
def dataC5 : Fields := [(strL "b", .str []), (strL "a", .str [])]

/-- C5 witness: a concrete mapping supplied in descending order comes
out strictly ascending. -/
theorem C5_keys_sorted_witness :
    List.Sorted (· < ·) (formatKeys fmtr0 dataC5) ∧
    formatKeys fmtr0 dataC5 = [strL "a", strL "b"] :=
  ⟨(C5_keys_sorted fmtr0 dataC5 rfl (by decide)).1, by decide⟩

/-- Warn-level entry rendered through the plain path for the C7
counterexample. -/
def entryC7 : Entry := ⟨fun _ => strL "TS", .warning, strL "boom", [], none, none⟩

/-- C7 counterexample: in the plain path (one of the output paths the
claim quantifies over) a Warn entry renders its level as the
framework's native `warning`, quoted — the text `WARN` appears nowhere
in the output. -/
theorem C7_plain_path_renders_warning :
    ((Format fmtrC1 entryC7 0 funcRepr0).bytes
        = some (strL "level=\"warning\" msg=\"boom\" \n")) ∧
    (¬ (strL "WARN") <:+: strL "level=\"warning\" msg=\"boom\" \n") ∧
    ((strL "level=\"warning\" ") <:+: strL "level=\"warning\" msg=\"boom\" \n") := by
  exact ⟨by decide, by decide, by decide⟩

/-- C7 (amended): only the colorized path renders Warn as the literal
`WARN`: the level text it computes is exactly `WARN`, and whenever the
timestamp is enabled that text appears verbatim in `printColored`'s
output; the plain path instead emits the framework's native spelling,
`level="warning"`. -/
theorem C7_warn_level_text :
    (levelTextOf .warning = strL "WARN") ∧
    (∀ (f : TextFormatter) (data : Fields) (e : Entry) (keys : List Str)
       (tsfmt : Str) (mini : Nat) (fr : (Str → Str) → Str) (s : Str),
      f.DisableTimestamp = false → e.level = .warning →
      printColored f data e keys tsfmt mini fr = some s →
      (strL "WARN") <:+: s) ∧
    (∀ (f : TextFormatter) (data : Fields) (e : Entry) (tsfmt : Str) (keys : List Str),
      e.level = .warning →
      (strL "level=\"warning\" ") <:+: plainBody f data e tsfmt keys) := by
  refine ⟨by decide, ?_, ?_⟩
  · intro f data e keys tsfmt mini fr s hDT hLv hps
    unfold printColored at hps
    cases hcs : f.colorScheme with
    | none => rw [hcs] at hps; exact absurd hps (by simp)
    | some cs =>
      rw [hcs] at hps
      simp only [Option.some.injEq] at hps
      subst hps
      simp only [hLv, hDT, Bool.false_eq_true, if_false, ite_false]
      by_cases hST : f.ShortTimestamp = true <;>
        simp only [hST, if_true, if_false, ite_true, ite_false] <;>
        [ (refine infix_extend_right _ (infix_extend_right _ (infix_extend_right _
            (infix_extend_right _ (infix_extend_left _ ?_)))); decide);
          (refine infix_extend_right _ (infix_extend_right _ (infix_extend_right _
            (infix_extend_right _ (infix_extend_left _ ?_)))); decide)]
  · intro f data e tsfmt keys hLv
    have hnq := needsQuoting_warning f
    simp only [plainBody, TextFormatter.appendKeyValue, hLv, Level.str, hnq,
      Bool.false_eq_true, if_false, ite_false]
    refine infix_extend_right _ (infix_extend_right _ (infix_extend_left _ ?_))
    decide

/-- C7 witness: the amended theorem's hypotheses are dischargeable — a
concrete colored Warn rendering contains `WARN` and a concrete plain
one contains `level="warning"`. -/
theorem C7_warn_level_text_witness :
    ((strL "WARN") <:+: ((printColored fmtrC4 [] entryC7 [] [] 0 funcRepr0).getD [])) ∧
    ((strL "level=\"warning\" ") <:+: plainBody fmtrC1 [] entryC7 [] []) :=
  ⟨C7_warn_level_text.2.1 fmtrC4 [] entryC7 [] [] 0 funcRepr0
      ((printColored fmtrC4 [] entryC7 [] [] 0 funcRepr0).getD []) rfl rfl (by decide),
   C7_warn_level_text.2.2 fmtrC1 [] entryC7 [] [] rfl⟩

end Prefixed
